import Mathlib

/-!
Verification development for the isolate gRPC server (orchestration tier).

Shallow embedding of the server code in src/src/isolate/server/server.py and
the agent code in src/src/isolate/connections/grpc/agent.py.  Python lists
are modelled as Lean lists in the same order (append at the end, pop from the
end), machine state that is mutated in place is passed explicitly, raised
exceptions become explicit sum types, and collaborator behaviour that lives
outside the embedded modules (user code execution, serialization, channel
establishment) is supplied through explicit oracle values.
-/

namespace Isolate

/-- Log severity, from isolate.logs.LogLevel. -/
inductive LogLevel
  | trace
  | debug
  | info
  | warning
  | error
deriving DecidableEq, Repr

/-- Log source, from isolate.logs.LogSource. -/
inductive LogSource
  | builder
  | bridge
  | user
deriving DecidableEq, Repr

/-- A log record `{message, level, source}`. -/
structure Log where
  message : String
  level : LogLevel
  source : LogSource
deriving DecidableEq, Repr

/-- gRPC status codes used by the server (grpc.StatusCode). -/
inductive StatusCode
  | ok
  | cancelled
  | unknown
  | invalid_argument
  | deadline_exceeded
  | not_found
  | aborted
  | unavailable
  | internal
deriving DecidableEq, Repr

/-- definitions.SerializedObject wire message. -/
structure SerializedObject where
  method : String
  definition : List Nat
  was_it_raised : Bool
  stringized_traceback : Option String
deriving DecidableEq, Repr

/-- definitions.PartialRunResult wire message: one element of the outbound
stream. -/
structure PartialRunResult where
  is_complete : Bool
  logs : List Log
  result : Option SerializedObject
deriving DecidableEq, Repr

/-- GRPCException from server.py: a message plus a status code, the code
defaulting to INVALID_ARGUMENT exactly as in its constructor. -/
structure GRPCException where
  message : String
  code : StatusCode := StatusCode.invalid_argument
deriving DecidableEq, Repr

/-- grpc.ChannelConnectivity states. -/
inductive ChannelConnectivity
  | idle
  | connecting
  | ready
  | transient_failure
  | shutdown
deriving DecidableEq, Repr

/-- RunnerAgent from server.py.  The gRPC stub and queue it carries are
opaque collaborators; the state that the embedded code inspects is the
recorded channel-connectivity history (appended to by the subscription
callback, most recent entry last) and whether its bound ExitStack has been
closed.  `agent_id` stands for object identity. -/
structure RunnerAgent where
  agent_id : Nat
  _channel_state_history : List ChannelConnectivity
  bound_context_closed : Bool := false
deriving DecidableEq, Repr

/-- RunnerAgent.is_accessible: look at the last recorded connectivity state
(history[-1]); an empty history gives None, and the result is whether the
last known state is READY. -/
def RunnerAgent.is_accessible (a : RunnerAgent) : Bool :=
  match a._channel_state_history.getLast? with
  | some last_known_state => last_known_state == ChannelConnectivity.ready
  | none => false

/-- RunnerAgent.check_connectivity simply returns is_accessible. -/
def RunnerAgent.check_connectivity (a : RunnerAgent) : Bool :=
  a.is_accessible

/-- RunnerAgent.terminate closes the bound ExitStack. -/
def RunnerAgent.terminate (a : RunnerAgent) : RunnerAgent :=
  { a with bound_context_closed := true }

/-- The agent cache key: tuple of filesystem paths. -/
abbrev CacheKey := List String

/-- The parts of LocalPythonGRPC that BridgeManager._identify reads. -/
structure Connection where
  environment_path : String
  extra_inheritance_paths : List String

/-- BridgeManager._identify: the ordered tuple
(environment_path, *extra_inheritance_paths). -/
def _identify (connection : Connection) : CacheKey :=
  connection.environment_path :: connection.extra_inheritance_paths

/-- BridgeManager pool state: for every cache key, the Python list of idle
agents (defaultdict(list): missing keys read as the empty list).  The list
is kept in Python order, so push appends at the end and pop takes from the
end. -/
structure BridgeManager where
  _agents : CacheKey → List RunnerAgent

/-- BridgeManager._cache_agent: append the agent to the stack for the
connection's key. -/
def _cache_agent (m : BridgeManager) (connection : Connection)
    (agent : RunnerAgent) : BridgeManager :=
  { _agents := fun key =>
      if key = _identify connection then m._agents key ++ [agent]
      else m._agents key }

/-- The candidate-probing loop of _allocate_new_agent, written over the
stack in pop order (top of stack first, i.e. the reverse of the stored
Python list): pop candidates one by one, return the first one whose
check_connectivity succeeds, terminating every candidate popped before it.
Returns (chosen candidate if any, terminated candidates in pop order,
agents left on the stack in pop order). -/
def scan_stack :
    List RunnerAgent → Option RunnerAgent × List RunnerAgent × List RunnerAgent
  | [] => (none, [], [])
  | a :: rest =>
    if a.check_connectivity then (some a, [], rest)
    else
      let r := scan_stack rest
      (r.1, RunnerAgent.terminate a :: r.2.1, r.2.2)

/-- Result of BridgeManager._allocate_new_agent: the agent handed out,
whether it was reused from the pool (as opposed to opening a new bridge via
connection._establish_bridge), the agents terminated by stale-connectivity
eviction, and the manager state afterwards. -/
structure AllocOutcome where
  agent : RunnerAgent
  reused : Bool
  terminated : List RunnerAgent
  manager : BridgeManager

/-- BridgeManager._allocate_new_agent.  `fresh` is the RunnerAgent that
would be built around the stub returned by
connection._establish_bridge(max_wait_timeout=MAX_GRPC_WAIT_TIMEOUT) on a
pool miss (that call is an external collaborator). -/
def _allocate_new_agent (m : BridgeManager) (connection : Connection)
    (fresh : RunnerAgent) : AllocOutcome :=
  let key := _identify connection
  let r := scan_stack (m._agents key).reverse
  match r.1 with
  | some agent =>
    { agent := agent
      reused := true
      terminated := r.2.1
      manager :=
        { _agents := fun k => if k = key then r.2.2.reverse else m._agents k } }
  | none =>
    { agent := fresh
      reused := false
      terminated := r.2.1
      manager :=
        { _agents := fun k => if k = key then [] else m._agents k } }

/-- How the body of a `with bridge_manager.establish(...)` block exits. -/
inductive ExitKind
  | normal
  | exceptional
deriving DecidableEq, Repr

/-- BridgeManager.establish as a whole scoped acquisition: allocate an
agent, run the body (which exits with the given ExitKind), and then run the
finally clause, which calls _cache_agent.  Returns the final manager state
and the agent that was lent out. -/
def establish (m : BridgeManager) (connection : Connection)
    (fresh : RunnerAgent) (outcome : ExitKind) : BridgeManager × RunnerAgent :=
  let alloc := _allocate_new_agent m connection fresh
  match outcome with
  | ExitKind.normal => (_cache_agent alloc.manager connection alloc.agent, alloc.agent)
  | ExitKind.exceptional => (_cache_agent alloc.manager connection alloc.agent, alloc.agent)

/-! ### Pump outcome classification (_run_task, lines 288-310) -/

/-- The exception retrieved from the pump future in _run_task, classified by
its Python type.  An RpcError carries its status code; AgentError and any
other exception carry the line list produced by traceback.format_exception. -/
inductive PumpError
  | rpc_error (message : String) (code : StatusCode)
  | agent_error (message : String) (tb : List String)
  | other (message : String) (tb : List String)
deriving DecidableEq, Repr

/-- IsolateServicer.log with level=ERROR and the default source=BRIDGE: the
stream element yielded for one traceback line. -/
def error_log_element (line : String) : PartialRunResult :=
  { is_complete := false
    logs := [{ message := line, level := LogLevel.error, source := LogSource.bridge }]
    result := none }

/-- The traceback.format_exception lines available for the exception (an
RpcError is re-raised before any formatting happens). -/
def PumpError.traceback_lines : PumpError → List String
  | PumpError.rpc_error _ _ => []
  | PumpError.agent_error _ tb => tb
  | PumpError.other _ tb => tb

/-- The exception-inspection tail of _run_task: an RpcError is re-raised as
a GRPCException with the original status code and no extra stream elements;
otherwise every traceback line is yielded as an ERROR log element, and then
an AgentError becomes a GRPCException with code ABORTED and the exception
text, while anything else becomes a GRPCException with code UNKNOWN and the
wrapped message.  Returns (stream elements yielded, exception raised). -/
def handle_pump_exception (exc : PumpError) :
    List PartialRunResult × GRPCException :=
  match exc with
  | PumpError.rpc_error msg code => ([], { message := msg, code := code })
  | PumpError.agent_error msg tb =>
    (tb.map error_log_element, { message := msg, code := StatusCode.aborted })
  | PumpError.other msg tb =>
    (tb.map error_log_element,
      { message := "An unexpected error occurred: " ++ msg ++ "."
        code := StatusCode.unknown })

/-! ### Request validation (_run_task, lines 193-208) -/

/-- Modelled from the spec: the outcome of interface.from_grpc on one
EnvironmentSpec.  The module isolate.server.interface is not under src/;
per the spec, decoding fails on an unknown kind (a ValueError in the
server's except clause) or on a malformed configuration (a TypeError whose
text is interpolated into the error message). -/
inductive FromGrpcOutcome
  | ok
  | value_error
  | type_error (message : String)
deriving DecidableEq, Repr

/-- An EnvironmentSpec as seen by the validation loop: its kind string, its
force flag, and the outcome of decoding it with from_grpc. -/
structure EnvironmentSpec where
  kind : String
  force : Bool
  parse : FromGrpcOutcome
deriving DecidableEq, Repr

/-- The decoding loop of _run_task: for each environment append
(env.force, from_grpc(env)); a ValueError raises GRPCException with the
unknown-kind message and a TypeError raises GRPCException with the
invalid-environment message, both with the constructor's default code. -/
def parse_environments :
    List EnvironmentSpec → Except GRPCException (List (Bool × EnvironmentSpec))
  | [] => Except.ok []
  | env :: rest =>
    match env.parse with
    | FromGrpcOutcome.value_error =>
      Except.error { message := "Unknown environment kind: " ++ env.kind }
    | FromGrpcOutcome.type_error msg =>
      Except.error { message := "Invalid environment: " ++ msg }
    | FromGrpcOutcome.ok =>
      (parse_environments rest).map (fun envs => (env.force, env) :: envs)

/-- The validation prefix of _run_task: decode every environment, then fail
with the explicit INVALID_ARGUMENT empty-list error if nothing was
collected. -/
def run_task_validate (environments : List EnvironmentSpec) :
    Except GRPCException (List (Bool × EnvironmentSpec)) :=
  match parse_environments environments with
  | Except.error e => Except.error e
  | Except.ok [] =>
    Except.error
      { message := "At least one environment must be specified for a run!"
        code := StatusCode.invalid_argument }
  | Except.ok envs => Except.ok envs

/-- _run_task as a generator, cut at the validation boundary: validation
runs before the first yield statement, so when it raises, the stream holds
no elements at all, whatever the rest of the pipeline would have produced
(`rest` stands for the elements and terminal error of the remaining
pipeline). -/
def run_task_stream (environments : List EnvironmentSpec)
    (rest : List PartialRunResult × Option GRPCException) :
    List PartialRunResult × Option GRPCException :=
  match run_task_validate environments with
  | Except.error e => ([], some e)
  | Except.ok _ => rest

/-! ### Background task registry (Task, Submit, Cancel, lines 169-184 and
316-338 and 366-378) -/

/-- The observable state of a concurrent.futures.Future for a submitted
pipeline. -/
inductive FutureStatus
  | pending
  | running
  | cancelled
  | finished
deriving DecidableEq, Repr

/-- future.cancel(): a pending future becomes cancelled; a running or
already-terminal future is unaffected. -/
def future_cancel : FutureStatus → FutureStatus
  | FutureStatus.pending => FutureStatus.cancelled
  | s => s

/-- The effect of the Task.cancel wait loop (future.exception(timeout=0.1)
retried until it stops timing out): the loop returns only once the future
is terminal, so a still-running future is observed after it finishes. -/
def future_wait_terminal : FutureStatus → FutureStatus
  | FutureStatus.running => FutureStatus.finished
  | s => s

/-- Task from server.py: the request (kept abstract), the optional pipeline
future (None until Submit assigns it; the Task made inside Run never gets
one), and the optional agent recorded by _run_task. -/
structure Task where
  request : String
  future : Option FutureStatus := none
  agent : Option RunnerAgent := none
deriving DecidableEq, Repr

/-- Task.cancel: repeatedly cancel the future and terminate the agent (when
one was recorded) until the future reports a terminal state.  Its net
observable effect on the task. -/
def Task.cancel (t : Task) : Task :=
  { t with
    future := t.future.map (fun f => future_wait_terminal (future_cancel f))
    agent := t.agent.map RunnerAgent.terminate }

/-- The background_tasks dict, as an association list in insertion order. -/
def RegistryMap := List (String × Task)

/-- Dict lookup. -/
def registry_get : RegistryMap → String → Option Task
  | [], _ => none
  | (k, t) :: rest, task_id =>
    if k = task_id then some t else registry_get rest task_id

/-- Dict assignment d[task_id] = task (overwrites, or appends when new). -/
def registry_set : RegistryMap → String → Task → RegistryMap
  | [], task_id, task => [(task_id, task)]
  | (k, t) :: rest, task_id, task =>
    if k = task_id then (k, task) :: rest
    else (k, t) :: registry_set rest task_id task

/-- Dict d.pop(task_id, None). -/
def registry_pop : RegistryMap → String → RegistryMap
  | [], _ => []
  | (k, t) :: rest, task_id =>
    if k = task_id then rest else (k, t) :: registry_pop rest task_id

/-- IsolateServicer state that the registry operations touch. -/
structure ServicerState where
  background_tasks : RegistryMap

/-- IsolateServicer.Submit: build Task(request=request.function) (future
still None), assign task.future from the runner pool before anything is
registered, then store the task under the fresh task_id. -/
def Submit (st : ServicerState) (task_id : String) (request : String) :
    ServicerState :=
  let task : Task := { request := request }
  let task : Task := { task with future := some FutureStatus.running }
  { background_tasks := registry_set st.background_tasks task_id task }

/-- The done callback registered by Submit: pop the task from the
registry. -/
def done_callback (st : ServicerState) (task_id : String) : ServicerState :=
  { background_tasks := registry_pop st.background_tasks task_id }

/-- IsolateServicer.Cancel: look the task up; when it is known invoke its
cancel handle, otherwise do nothing; always answer with the empty
CancelResponse (modelled as Unit). -/
def Cancel (st : ServicerState) (task_id : String) : ServicerState × Unit :=
  match registry_get st.background_tasks task_id with
  | none => (st, ())
  | some task =>
    ({ background_tasks := registry_set st.background_tasks task_id task.cancel },
      ())

/-- The registry-mutating operations of the servicer. -/
inductive ServicerOp
  | submit (task_id : String) (request : String)
  | task_done (task_id : String)
  | cancel_rpc (task_id : String)
deriving DecidableEq, Repr

/-- Apply one servicer operation to the state. -/
def apply_op (st : ServicerState) : ServicerOp → ServicerState
  | ServicerOp.submit task_id request => Submit st task_id request
  | ServicerOp.task_done task_id => done_callback st task_id
  | ServicerOp.cancel_rpc task_id => (Cancel st task_id).1

/-- The servicer starts with an empty background-task registry. -/
def initial_state : ServicerState := { background_tasks := [] }

/-! ### The drainer: watch_queue_until_completed (lines 380-408)

The loop runs concurrently with producers (the builder log hook and the
agent-stream pump).  One loop iteration is modelled against one environment
step describing what the producers did while the drainer was inside
queue.get: which elements arrived (appended to the FIFO), whether the
watched future completed, and how much time elapsed.  Time is in whole
seconds on a monotonic clock. -/

/-- EMPTY_MESSAGE_INTERVAL (seconds), at its default of 600. -/
def EMPTY_MESSAGE_INTERVAL : Nat := 600

/-- The synthetic keep-alive element yielded on a long-idle queue. -/
def empty_message : PartialRunResult :=
  { is_complete := false, logs := [], result := none }

/-- What the producers did during one drainer iteration. -/
structure EnvStep where
  arrivals : List PartialRunResult
  complete : Bool
  dt : Nat
deriving DecidableEq, Repr

/-- Drainer-visible state: the queue contents (front = next get), whether
is_completed() already returned true, the current monotonic time, and the
value of the `timer` variable (the last reset time). -/
structure DrainState where
  queue : List PartialRunResult
  completed : Bool
  now : Nat
  timer : Nat
deriving DecidableEq, Repr

/-- watch_queue_until_completed, driven by a finite schedule of environment
steps.  Each iteration first lets the environment act, then checks
is_completed(); once it holds the final drain flushes the queue.  While it
does not hold, a nonempty queue yields its front element (the timer is NOT
touched by a successful get), and an empty queue yields the synthetic
empty_message exactly when more than EMPTY_MESSAGE_INTERVAL has passed
since the timer was last reset, resetting the timer then.  Every yielded
element is paired with its emission time. -/
def watch_queue_until_completed (st : DrainState) :
    List EnvStep → List (Nat × PartialRunResult)
  | [] => st.queue.map (fun x => (st.now, x))
  | e :: es =>
    let q := st.queue ++ e.arrivals
    let c := st.completed || e.complete
    let now := st.now + e.dt
    if c then q.map (fun x => (now, x))
    else
      match q with
      | x :: rest =>
        (now, x) :: watch_queue_until_completed
          { queue := rest, completed := c, now := now, timer := st.timer } es
      | [] =>
        if EMPTY_MESSAGE_INTERVAL < now - st.timer then
          (now, empty_message) :: watch_queue_until_completed
            { queue := [], completed := c, now := now, timer := now } es
        else
          watch_queue_until_completed
            { queue := [], completed := c, now := now, timer := st.timer } es

/-- The elements enqueued no later than the step at which the watched
future first completes (elements of later steps are outside the watch). -/
def arrivals_before_completion : List EnvStep → List PartialRunResult
  | [] => []
  | e :: es =>
    if e.complete then e.arrivals
    else e.arrivals ++ arrivals_before_completion es

/-- `KeepInterleaved k l out`: out is exactly l, in order, with copies of
the keep-alive element k inserted at arbitrary positions. -/
inductive KeepInterleaved (k : PartialRunResult) :
    List PartialRunResult → List PartialRunResult → Prop
  | nil : KeepInterleaved k [] []
  | cons (x : PartialRunResult) {l out : List PartialRunResult} :
      KeepInterleaved k l out → KeepInterleaved k (x :: l) (x :: out)
  | keep {l out : List PartialRunResult} :
      KeepInterleaved k l out → KeepInterleaved k l (k :: out)

/-- The emission times of the synthetic keep-alive elements in a drainer
output (meaningful when no enqueued element equals empty_message). -/
def keep_times (out : List (Nat × PartialRunResult)) : List Nat :=
  (out.filter (fun p => p.2 = empty_message)).map Prod.fst

/-- The log hook (LogHandler._add_log_to_queue): each collaborator log is
wrapped as a non-terminal single-log stream element. -/
def log_handler_element (log : Log) : PartialRunResult :=
  { is_complete := false, logs := [log], result := none }

/-- Checks a stream shape: once an element with is_complete=true occurs,
every later element must be the synthetic keep-alive.  Holds exactly when
any terminal element is the last non-synthetic element of the stream (and,
since the keep-alive itself is non-terminal, occurs at most once). -/
def terminal_then_keeps : List PartialRunResult → Bool
  | [] => true
  | x :: rest =>
    if x.is_complete then rest.all (fun y => y == empty_message)
    else terminal_then_keeps rest

/-! ### The agent servicer (connections/grpc/agent.py)

The agent executes arbitrary user code and serializes arbitrary objects;
those collaborator behaviours enter the model as oracle values, while the
control flow of AgentServicer.Run, execute_function and send_object is
translated directly. -/

/-- definitions.FunctionCall wire message. -/
structure FunctionCall where
  function : SerializedObject
  setup_func : Option SerializedObject
deriving DecidableEq, Repr

/-- Oracle for one execute_function call: whether from_grpc deserializes
without raising, whether the deserialized object is callable, whether the
user function raised, and the stringized traceback captured when it did. -/
structure ExecBehavior where
  depickle_ok : Bool
  is_callable : Bool
  raised : Bool
  tb : Option String
deriving DecidableEq, Repr

/-- Outcome of execute_function: either an AbortException escapes, or a
(result, was_it_raised, stringized_tb) triple is returned (the result
object itself stays abstract). -/
inductive ExecResult
  | aborted (message : String)
  | returned (was_it_raised : Bool) (tb : Option String)
deriving DecidableEq, Repr

/-- AgentServicer.execute_function: a was_it_raised input aborts; a
deserialization failure returns the exception with was_it_raised=True and
a traceback; a non-callable aborts; otherwise the user function runs and
its raised flag and traceback are reported. -/
def execute_function (function : SerializedObject) (function_kind : String)
    (b : ExecBehavior) : ExecResult :=
  if function.was_it_raised then
    ExecResult.aborted
      ("The " ++ function_kind ++ " function must be callable, " ++
        "not a raised exception.")
  else if !b.depickle_ok then
    ExecResult.returned true b.tb
  else if !b.is_callable then
    ExecResult.aborted
      ("The " ++ function_kind ++ " function must be callable, " ++
        "not the deserialized object.")
  else
    ExecResult.returned b.raised (if b.raised then b.tb else none)

/-- Oracle for serialize_object inside send_object. -/
inductive SerializeOutcome
  | ok (definition : List Nat)
  | serialization_error
  | other_error
deriving DecidableEq, Repr

/-- AgentServicer.send_object: serialize the result and wrap it in the
terminal stream element (is_complete=True, empty logs, the serialized
object as result); a serialization failure raises AbortException instead. -/
def send_object (serialization_method : String) (was_it_raised : Bool)
    (stringized_tb : Option String) (s : SerializeOutcome) :
    Except String PartialRunResult :=
  match s with
  | SerializeOutcome.ok definition =>
    Except.ok
      { is_complete := true
        logs := []
        result := some
          { method := serialization_method
            definition := definition
            was_it_raised := was_it_raised
            stringized_traceback := stringized_tb } }
  | SerializeOutcome.serialization_error =>
    Except.error "Error while serializing the execution result."
  | SerializeOutcome.other_error =>
    Except.error "An unexpected error occurred while serializing the result."

/-- How AgentServicer.Run terminates: the generator returns normally, or
context.abort(INVALID_ARGUMENT, message) tears the RPC down. -/
inductive AgentRunOutcome
  | ok
  | aborted (message : String)
deriving DecidableEq, Repr

/-- Oracles for one AgentServicer.Run invocation. -/
structure AgentRunBehavior where
  setup_cached : Bool
  setup_exec : ExecBehavior
  setup_serialize : SerializeOutcome
  func_exec : ExecBehavior
  func_serialize : SerializeOutcome
deriving DecidableEq, Repr

/-- The main-function half of AgentServicer.Run: execute the request
function and yield the element built by send_object; an AbortException
from either step is caught and turned into context.abort. -/
def agent_run_function (request : FunctionCall) (b : AgentRunBehavior) :
    List PartialRunResult × AgentRunOutcome :=
  match execute_function request.function "function" b.func_exec with
  | ExecResult.aborted msg => ([], AgentRunOutcome.aborted msg)
  | ExecResult.returned was_it_raised tb =>
    match send_object request.function.method was_it_raised tb
        b.func_serialize with
    | Except.ok elem => ([elem], AgentRunOutcome.ok)
    | Except.error msg => ([], AgentRunOutcome.aborted msg)

/-- AgentServicer.Run: when a setup function is present and not cached it
runs first; if it raised, its result element is yielded and the run is then
aborted; if it aborted, the run aborts with that message; otherwise (setup
absent, cached, or succeeded) the request function runs as in
agent_run_function.  Returns the stream elements yielded and the outcome. -/
def AgentServicer.Run (request : FunctionCall) (b : AgentRunBehavior) :
    List PartialRunResult × AgentRunOutcome :=
  match request.setup_func with
  | none => agent_run_function request b
  | some setup_func =>
    if b.setup_cached then agent_run_function request b
    else
      match execute_function setup_func "setup" b.setup_exec with
      | ExecResult.aborted msg => ([], AgentRunOutcome.aborted msg)
      | ExecResult.returned true tb =>
        match send_object setup_func.method true tb b.setup_serialize with
        | Except.ok elem =>
          ([elem],
            AgentRunOutcome.aborted "The setup function has thrown an error.")
        | Except.error msg => ([], AgentRunOutcome.aborted msg)
      | ExecResult.returned false _ => agent_run_function request b

/-! ### Concrete demonstration values used by witnesses and counterexamples -/

/-- A pooled agent whose channel last reported SHUTDOWN. -/
def demo_dead_agent : RunnerAgent :=
  { agent_id := 1, _channel_state_history := [ChannelConnectivity.shutdown] }

/-- A pooled agent whose channel last reported READY. -/
def demo_ready_agent : RunnerAgent :=
  { agent_id := 2, _channel_state_history := [ChannelConnectivity.ready] }

/-- A freshly established agent. -/
def demo_fresh_agent : RunnerAgent :=
  { agent_id := 3, _channel_state_history := [] }

/-- A connection whose cache key is ["p"]. -/
def demo_connection : Connection :=
  { environment_path := "p", extra_inheritance_paths := [] }

/-- A pool holding a dead agent below a ready agent under the key ["p"]. -/
def demo_manager : BridgeManager :=
  { _agents := fun k =>
      if k = ["p"] then [demo_dead_agent, demo_ready_agent] else [] }

/-- An ordinary builder log wrapped as a stream element. -/
def demo_element : PartialRunResult :=
  log_handler_element
    { message := "m", level := LogLevel.info, source := LogSource.builder }

/-- A registered background task with a running future and a borrowed
agent. -/
def demo_task : Task :=
  { request := "r"
    future := some FutureStatus.running
    agent := some demo_ready_agent }

/-- A servicer state holding demo_task under the id "t1". -/
def demo_state : ServicerState :=
  { background_tasks := [("t1", demo_task)] }

/-- A function call with no setup function. -/
def demo_call : FunctionCall :=
  { function := { method := "pickle", definition := [], was_it_raised := false
                  stringized_traceback := none }
    setup_func := none }

/-- Oracles for a run whose user function deserializes, is callable,
returns normally, and whose result serializes. -/
def demo_behavior : AgentRunBehavior :=
  { setup_cached := false
    setup_exec := { depickle_ok := true, is_callable := true, raised := false
                    tb := none }
    setup_serialize := SerializeOutcome.ok []
    func_exec := { depickle_ok := true, is_callable := true, raised := false
                   tb := none }
    func_serialize := SerializeOutcome.ok [] }

/-- The terminal element that run emits. -/
def demo_terminal : PartialRunResult :=
  { is_complete := true
    logs := []
    result := some { method := "pickle", definition := [], was_it_raised := false
                     stringized_traceback := none } }

/-! ## Helper lemmas -/

theorem keep_interleaved_refl (k : PartialRunResult)
    (l : List PartialRunResult) : KeepInterleaved k l l := by
  induction l with
  | nil => exact KeepInterleaved.nil
  | cons x xs ih => exact KeepInterleaved.cons x ih

theorem terminate_preserves_connectivity (a : RunnerAgent) :
    (RunnerAgent.terminate a).check_connectivity = a.check_connectivity := rfl

theorem scan_stack_spec (l : List RunnerAgent) :
    (scan_stack l).1 = l.find? (fun a => a.check_connectivity) ∧
    (scan_stack l).2.1 =
      (l.takeWhile (fun a => !a.check_connectivity)).map RunnerAgent.terminate := by
  induction l with
  | nil => simp [scan_stack]
  | cons a rest ih =>
    by_cases h : a.check_connectivity
    · simp [scan_stack, h, List.find?, List.takeWhile]
    · simp [scan_stack, h, List.find?, List.takeWhile,
        Bool.not_eq_true, ih.1, ih.2]

theorem mem_takeWhile_pred {α : Type} (p : α → Bool) (l : List α) (x : α)
    (h : x ∈ l.takeWhile p) : p x = true := by
  induction l with
  | nil => cases h
  | cons a rest ih =>
    by_cases hp : p a = true
    · rw [List.takeWhile_cons_of_pos hp] at h
      rcases List.mem_cons.mp h with h1 | h2
      · rw [h1]; exact hp
      · exact ih h2
    · rw [List.takeWhile_cons_of_neg hp] at h
      cases h

theorem keep_times_map_flush (now : Nat) (q : List PartialRunResult)
    (h : ∀ x ∈ q, x ≠ empty_message) :
    keep_times (q.map (fun x => (now, x))) = [] := by
  induction q with
  | nil => rfl
  | cons x rest ih =>
    have hx : x ≠ empty_message := h x (by simp)
    have hrest := ih (fun y hy => h y (by simp [hy]))
    simp [keep_times, List.filter_cons, hx] at *
    exact hrest

theorem keep_times_cons_ne (t : Nat) (x : PartialRunResult)
    (out : List (Nat × PartialRunResult)) (hx : x ≠ empty_message) :
    keep_times ((t, x) :: out) = keep_times out := by
  simp [keep_times, List.filter_cons, hx]

theorem keep_times_cons_keep (t : Nat)
    (out : List (Nat × PartialRunResult)) :
    keep_times ((t, empty_message) :: out) = t :: keep_times out := by
  simp [keep_times, List.filter_cons]

theorem registry_get_set_same (l : RegistryMap) (task_id : String)
    (task : Task) :
    registry_get (registry_set l task_id task) task_id = some task := by
  induction l with
  | nil => simp [registry_set, registry_get]
  | cons p rest ih =>
    by_cases h : p.1 = task_id
    · simp [registry_set, registry_get, h]
    · simp [registry_set, registry_get, h, ih]

theorem registry_set_set_same (l : RegistryMap) (task_id : String)
    (t u : Task) :
    registry_set (registry_set l task_id t) task_id u =
      registry_set l task_id u := by
  induction l with
  | nil => simp [registry_set]
  | cons p rest ih =>
    by_cases h : p.1 = task_id
    · simp [registry_set, h]
    · simp [registry_set, h, ih]

theorem task_cancel_idem (t : Task) : t.cancel.cancel = t.cancel := by
  cases t with
  | mk request future agent =>
    cases future with
    | none => cases agent <;> simp [Task.cancel, RunnerAgent.terminate]
    | some f =>
      cases agent with
      | none =>
        cases f <;> simp [Task.cancel, future_cancel, future_wait_terminal]
      | some a =>
        cases f <;>
          simp [Task.cancel, future_cancel, future_wait_terminal,
            RunnerAgent.terminate]

theorem parse_environments_append_ok (pre : List EnvironmentSpec)
    (rest : List EnvironmentSpec) (e : GRPCException)
    (hpre : ∀ x ∈ pre, x.parse = FromGrpcOutcome.ok)
    (h : parse_environments rest = Except.error e) :
    parse_environments (pre ++ rest) = Except.error e := by
  induction pre with
  | nil => simpa using h
  | cons x xs ih =>
    have hx : x.parse = FromGrpcOutcome.ok := hpre x (by simp)
    have hrec := ih (fun y hy => hpre y (by simp [hy]))
    simp [parse_environments, hx, hrec, Except.map]

/-! ## Claim theorems -/

/-- C9: is_accessible returns true exactly when the recorded connectivity
history is non-empty and its most recent entry is READY; an empty history
therefore reports not accessible. -/
theorem is_accessible_iff_last_ready (a : RunnerAgent) :
    a.is_accessible = true ↔
      a._channel_state_history ≠ [] ∧
      a._channel_state_history.getLast? = some ChannelConnectivity.ready := by
  unfold RunnerAgent.is_accessible
  cases h : a._channel_state_history.getLast? with
  | none =>
    simp only [h]
    constructor
    · intro hx; cases hx
    · rintro ⟨-, hx⟩; cases hx
  | some s =>
    have hne : a._channel_state_history ≠ [] := by
      intro he
      rw [he] at h
      cases h
    simp only [h, beq_iff_eq]
    constructor
    · intro hx; exact ⟨hne, by rw [hx]⟩
    · rintro ⟨-, hx⟩
      cases hx
      rfl

/-- C3: classification of a pump failure.  An RpcError is re-raised as a
GRPCException carrying the original status code and yields no stream
elements; an AgentError becomes a GRPCException with code ABORTED carrying
the agent's detail text; any other exception has its stack-trace lines
emitted as ERROR-level BRIDGE log elements on the stream and then becomes a
GRPCException with code UNKNOWN. -/
theorem pump_error_classification (msg : String) (code : StatusCode)
    (tb : List String) :
    handle_pump_exception (PumpError.rpc_error msg code) =
      ([], { message := msg, code := code }) ∧
    (handle_pump_exception (PumpError.agent_error msg tb)).2 =
      { message := msg, code := StatusCode.aborted } ∧
    handle_pump_exception (PumpError.other msg tb) =
      (tb.map (fun line =>
          { is_complete := false
            logs := [{ message := line, level := LogLevel.error
                       source := LogSource.bridge }]
            result := none }),
        { message := "An unexpected error occurred: " ++ msg ++ "."
          code := StatusCode.unknown }) :=
  ⟨rfl, rfl, rfl⟩

/-- C1 counterexample: a run whose body exits with an exception.  With an
empty pool, the freshly established agent is nonetheless pushed back onto
the pool stack for the connection's cache key by the finally clause of
establish, and its bound cleanup scope stays open — the claim says the
agent should have been terminated and kept out of the pool. -/
theorem establish_exceptional_exit_counterexample :
    (establish { _agents := fun _ => [] } demo_connection demo_fresh_agent
        ExitKind.exceptional).1._agents ["p"] = [demo_fresh_agent] ∧
    demo_fresh_agent.bound_context_closed = false := by
  constructor
  · decide
  · decide

/-- C1 (amended): establish is a scoped acquisition whose release path is
the same on every exit: the borrowed agent is pushed back onto the pool
stack for its cache key on normal AND on exceptional completion, and
establish itself never closes the agent's bound cleanup scope (termination
happens only through RunnerAgent.terminate, called by stale-candidate
eviction during allocation, by the acquirer, or at manager shutdown). -/
theorem establish_always_caches_agent (m : BridgeManager)
    (connection : Connection) (fresh : RunnerAgent) (outcome : ExitKind) :
    (establish m connection fresh outcome).1._agents (_identify connection) =
      (_allocate_new_agent m connection fresh).manager._agents
          (_identify connection) ++
        [(_allocate_new_agent m connection fresh).agent] ∧
    (establish m connection fresh outcome).2 =
      (_allocate_new_agent m connection fresh).agent ∧
    establish m connection fresh ExitKind.normal =
      establish m connection fresh ExitKind.exceptional := by
  cases outcome <;> simp [establish, _cache_agent]

/-- C6: when validation fails, _run_task raises before its first yield, so
the stream holds no element regardless of what the rest of the pipeline
would produce; an empty environment list gives the explicit
INVALID_ARGUMENT message, the first environment whose decoding raises
ValueError gives "Unknown environment kind: <kind>" with the constructor's
default INVALID_ARGUMENT code, and a TypeError gives the
"Invalid environment: ..." message with the same default code. -/
theorem run_task_validation_failures (pre post : List EnvironmentSpec)
    (env : EnvironmentSpec) (msg : String)
    (rest : List PartialRunResult × Option GRPCException) :
    (run_task_stream [] rest =
      ([], some
        { message := "At least one environment must be specified for a run!"
          code := StatusCode.invalid_argument })) ∧
    ((∀ e ∈ pre, e.parse = FromGrpcOutcome.ok) →
      env.parse = FromGrpcOutcome.value_error →
      run_task_stream (pre ++ env :: post) rest =
        ([], some
          { message := "Unknown environment kind: " ++ env.kind
            code := StatusCode.invalid_argument })) ∧
    ((∀ e ∈ pre, e.parse = FromGrpcOutcome.ok) →
      env.parse = FromGrpcOutcome.type_error msg →
      run_task_stream (pre ++ env :: post) rest =
        ([], some
          { message := "Invalid environment: " ++ msg
            code := StatusCode.invalid_argument })) := by
  refine ⟨rfl, ?_, ?_⟩
  · intro hpre henv
    have hp : parse_environments (pre ++ env :: post) =
        Except.error { message := "Unknown environment kind: " ++ env.kind } := by
      refine parse_environments_append_ok pre (env :: post) _ hpre ?_
      simp [parse_environments, henv]
    simp [run_task_stream, run_task_validate, hp]
  · intro hpre henv
    have hp : parse_environments (pre ++ env :: post) =
        Except.error { message := "Invalid environment: " ++ msg } := by
      refine parse_environments_append_ok pre (env :: post) _ hpre ?_
      simp [parse_environments, henv]
    simp [run_task_stream, run_task_validate, hp]

/-- C6 witness: the three validation failures at concrete requests. -/
theorem run_task_validation_failures_witness :
    run_task_stream [] ([], none) =
      ([], some
        { message := "At least one environment must be specified for a run!"
          code := StatusCode.invalid_argument }) ∧
    run_task_stream
        [{ kind := "does-not-exist", force := false
           parse := FromGrpcOutcome.value_error }] ([], none) =
      ([], some
        { message := "Unknown environment kind: " ++ "does-not-exist"
          code := StatusCode.invalid_argument }) ∧
    run_task_stream
        [{ kind := "virtualenv", force := false
           parse := FromGrpcOutcome.type_error "bad field" }] ([], none) =
      ([], some
        { message := "Invalid environment: " ++ "bad field"
          code := StatusCode.invalid_argument }) := by
  have h := run_task_validation_failures []
    [] { kind := "does-not-exist", force := false
         parse := FromGrpcOutcome.value_error } "bad field" ([], none)
  have h2 := run_task_validation_failures []
    [] { kind := "virtualenv", force := false
         parse := FromGrpcOutcome.type_error "bad field" } "bad field" ([], none)
  exact ⟨h.1, h.2.1 (by intro e he; cases he) rfl,
    h2.2.2 (by intro e he; cases he) rfl⟩

/-- C7: agent allocation is keyed by the ordered tuple
(environment_path, inheritance paths...); it probes the stack in pop order
(most recently cached first), hands back the first candidate whose last
observed connectivity is READY, terminates every candidate probed before
it, opens a fresh bridge only when no pooled candidate is READY, leaves the
stacks of all other keys untouched, and keys that differ only in path
order are distinct. -/
theorem allocate_new_agent_spec (m : BridgeManager) (connection : Connection)
    (fresh : RunnerAgent) :
    _identify connection =
      connection.environment_path :: connection.extra_inheritance_paths ∧
    (∀ k, k ≠ _identify connection →
      (_allocate_new_agent m connection fresh).manager._agents k =
        m._agents k) ∧
    (∀ a,
      (m._agents (_identify connection)).reverse.find?
          (fun x => x.check_connectivity) = some a →
      (_allocate_new_agent m connection fresh).agent = a ∧
      (_allocate_new_agent m connection fresh).reused = true) ∧
    ((m._agents (_identify connection)).reverse.find?
        (fun x => x.check_connectivity) = none →
      (_allocate_new_agent m connection fresh).agent = fresh ∧
      (_allocate_new_agent m connection fresh).reused = false) ∧
    (_allocate_new_agent m connection fresh).terminated =
      ((m._agents (_identify connection)).reverse.takeWhile
          (fun x => !x.check_connectivity)).map RunnerAgent.terminate ∧
    (∀ t ∈ (_allocate_new_agent m connection fresh).terminated,
      t.bound_context_closed = true ∧ t.check_connectivity = false) ∧
    _identify { environment_path := "p", extra_inheritance_paths := ["a", "b"] } ≠
      _identify { environment_path := "p", extra_inheritance_paths := ["b", "a"] } := by
  have hs := scan_stack_spec (m._agents (_identify connection)).reverse
  refine ⟨rfl, ?_, ?_, ?_, ?_, ?_, by decide⟩
  · intro k hk
    unfold _allocate_new_agent
    cases hfind : (scan_stack (m._agents (_identify connection)).reverse).1 with
    | none => simp [hfind, hk]
    | some a => simp [hfind, hk]
  · intro a ha
    unfold _allocate_new_agent
    simp [hs.1.trans ha]
  · intro ha
    unfold _allocate_new_agent
    simp [hs.1.trans ha]
  · unfold _allocate_new_agent
    cases hfind : (scan_stack (m._agents (_identify connection)).reverse).1 with
    | none => simp [hfind, hs.2]
    | some a => simp [hfind, hs.2]
  · intro t ht
    have hterm : (_allocate_new_agent m connection fresh).terminated =
        ((m._agents (_identify connection)).reverse.takeWhile
          (fun x => !x.check_connectivity)).map RunnerAgent.terminate := by
      unfold _allocate_new_agent
      cases hfind : (scan_stack (m._agents (_identify connection)).reverse).1 with
      | none => simp [hfind, hs.2]
      | some a => simp [hfind, hs.2]
    rw [hterm] at ht
    rcases List.mem_map.mp ht with ⟨s, hsmem, hst⟩
    have hsc : (fun x => !x.check_connectivity) s = true :=
      mem_takeWhile_pred (fun x => !x.check_connectivity) _ s hsmem
    have hsc2 : s.check_connectivity = false := by simpa using hsc
    constructor
    · rw [← hst]; rfl
    · rw [← hst, terminate_preserves_connectivity]
      exact hsc2

/-- C7 witness: with a dead agent below a ready one under key ["p"], the
ready agent is found first in pop order and reused, and the stack of
another key is untouched. -/
theorem allocate_new_agent_spec_witness :
    (demo_manager._agents (_identify demo_connection)).reverse.find?
        (fun x => x.check_connectivity) = some demo_ready_agent ∧
    (_allocate_new_agent demo_manager demo_connection demo_fresh_agent).agent =
      demo_ready_agent ∧
    (_allocate_new_agent demo_manager demo_connection
        demo_fresh_agent).reused = true ∧
    (_allocate_new_agent demo_manager demo_connection
        demo_fresh_agent).manager._agents ["q"] = [] := by
  have h := allocate_new_agent_spec demo_manager demo_connection
    demo_fresh_agent
  have hfind : (demo_manager._agents (_identify demo_connection)).reverse.find?
      (fun x => x.check_connectivity) = some demo_ready_agent := by decide
  exact ⟨hfind, (h.2.2.1 demo_ready_agent hfind).1,
    (h.2.2.1 demo_ready_agent hfind).2, h.2.1 ["q"] (by decide)⟩

/-- C8: Cancel(task_id) returns the empty response and leaves the state
unchanged when the id is unknown, invokes the task's cancel handle when it
is registered, and is idempotent: a second Cancel with the same id changes
nothing more, whatever state the task's future was in. -/
theorem cancel_rpc_spec (st : ServicerState) (task_id : String) :
    (registry_get st.background_tasks task_id = none →
      Cancel st task_id = (st, ())) ∧
    (∀ task, registry_get st.background_tasks task_id = some task →
      Cancel st task_id =
        ({ background_tasks :=
            registry_set st.background_tasks task_id task.cancel }, ())) ∧
    Cancel (Cancel st task_id).1 task_id = Cancel st task_id := by
  refine ⟨?_, ?_, ?_⟩
  · intro h
    simp [Cancel, h]
  · intro task h
    simp [Cancel, h]
  · cases h : registry_get st.background_tasks task_id with
    | none => simp [Cancel, h]
    | some task =>
      have h1 : Cancel st task_id =
          ({ background_tasks :=
              registry_set st.background_tasks task_id task.cancel }, ()) := by
        simp [Cancel, h]
      rw [h1]
      have h2 : registry_get
          (registry_set st.background_tasks task_id task.cancel) task_id =
          some task.cancel := registry_get_set_same _ _ _
      simp [Cancel, h2, registry_set_set_same, task_cancel_idem]

/-- C8 witness: cancelling an unknown id is a no-op, cancelling a
registered running task cancels it, and repeating the call changes
nothing. -/
theorem cancel_rpc_spec_witness :
    registry_get demo_state.background_tasks "absent" = none ∧
    Cancel demo_state "absent" = (demo_state, ()) ∧
    registry_get demo_state.background_tasks "t1" = some demo_task ∧
    Cancel demo_state "t1" =
      ({ background_tasks :=
          registry_set demo_state.background_tasks "t1" demo_task.cancel }, ()) ∧
    Cancel (Cancel demo_state "t1").1 "t1" = Cancel demo_state "t1" := by
  have ha := cancel_rpc_spec demo_state "absent"
  have ht := cancel_rpc_spec demo_state "t1"
  have h1 : registry_get demo_state.background_tasks "absent" = none := by
    decide
  have h2 : registry_get demo_state.background_tasks "t1" = some demo_task := by
    decide
  exact ⟨h1, ha.1 h1, h2, ht.2.1 demo_task h2, ht.2.2⟩

theorem registry_all_future_set (l : RegistryMap) (task_id : String)
    (task : Task) (hl : l.all (fun q => q.2.future.isSome) = true)
    (ht : task.future.isSome = true) :
    (registry_set l task_id task).all (fun q => q.2.future.isSome) = true := by
  induction l with
  | nil => simp [registry_set, ht]
  | cons p rest ih =>
    simp only [List.all_cons, Bool.and_eq_true] at hl
    by_cases h : p.1 = task_id
    · simp [registry_set, h, ht, hl.2]
    · simp [registry_set, h, hl.1, ih hl.2]

theorem registry_all_future_pop (l : RegistryMap) (task_id : String)
    (hl : l.all (fun q => q.2.future.isSome) = true) :
    (registry_pop l task_id).all (fun q => q.2.future.isSome) = true := by
  induction l with
  | nil => simp [registry_pop]
  | cons p rest ih =>
    simp only [List.all_cons, Bool.and_eq_true] at hl
    by_cases h : p.1 = task_id
    · simp [registry_pop, h, hl.2]
    · simp [registry_pop, h, hl.1, ih hl.2]

theorem registry_all_future_get (l : RegistryMap) (task_id : String)
    (task : Task) (hl : l.all (fun q => q.2.future.isSome) = true)
    (h : registry_get l task_id = some task) : task.future.isSome = true := by
  induction l with
  | nil => cases h
  | cons p rest ih =>
    simp only [List.all_cons, Bool.and_eq_true] at hl
    by_cases hk : p.1 = task_id
    · have : p.2 = task := by
        simpa [registry_get, hk] using h
      rw [← this]
      exact hl.1
    · exact ih hl.2 (by simpa [registry_get, hk] using h)

theorem apply_op_preserves_future (st : ServicerState) (op : ServicerOp)
    (h : st.background_tasks.all (fun q => q.2.future.isSome) = true) :
    (apply_op st op).background_tasks.all (fun q => q.2.future.isSome) = true := by
  cases op with
  | submit task_id request =>
    exact registry_all_future_set _ _ _ h rfl
  | task_done task_id =>
    exact registry_all_future_pop _ _ h
  | cancel_rpc task_id =>
    show (Cancel st task_id).1.background_tasks.all _ = true
    cases hg : registry_get st.background_tasks task_id with
    | none => simpa [Cancel, hg] using h
    | some task =>
      have hfut : task.future.isSome = true :=
        registry_all_future_get _ _ _ h hg
      have hfut2 : task.cancel.future.isSome = true := by
        unfold Task.cancel
        cases hf : task.future with
        | none => rw [hf] at hfut; cases hfut
        | some f => simp
      simpa [Cancel, hg] using registry_all_future_set _ task_id _ h hfut2

theorem foldl_preserves_future (ops : List ServicerOp) :
    ∀ st : ServicerState,
      st.background_tasks.all (fun q => q.2.future.isSome) = true →
      ((ops.foldl apply_op st).background_tasks.all
        (fun q => q.2.future.isSome)) = true := by
  induction ops with
  | nil => intro st h; simpa using h
  | cons op rest ih =>
    intro st h
    exact ih _ (apply_op_preserves_future st op h)

/-- C10: from the empty registry, any sequence of Submit, done-callback and
Cancel operations leaves every registered task with an assigned future
(Submit stores the task only after the future field is set, the done
callback only removes, and Task.cancel never clears the field); moreover a
just-Submitted task is registered with its future already assigned. -/
theorem background_tasks_future_assigned (ops : List ServicerOp) :
    ((ops.foldl apply_op initial_state).background_tasks.all
      (fun q => q.2.future.isSome)) = true ∧
    ∀ (st : ServicerState) (task_id request : String),
      registry_get (Submit st task_id request).background_tasks task_id =
        some { request := request, future := some FutureStatus.running
               agent := none } := by
  constructor
  · exact foldl_preserves_future ops initial_state rfl
  · intro st task_id request
    exact registry_get_set_same _ _ _

/-- C2: provided the watched future completes during the schedule, the
drainer's output is exactly the enqueued elements — the initial queue
contents followed by every arrival up to completion — in FIFO order, with
only synthetic keep-alive elements interleaved; in particular every log
enqueued before the pump's future completes is yielded, and it precedes
any element (such as the terminal one) enqueued after it. -/
theorem watch_queue_fifo_ordering (es : List EnvStep) :
    ∀ (q0 : List PartialRunResult) (now0 timer0 : Nat),
      es.any (fun e => e.complete) = true →
      KeepInterleaved empty_message (q0 ++ arrivals_before_completion es)
        ((watch_queue_until_completed
            { queue := q0, completed := false, now := now0, timer := timer0 }
            es).map Prod.snd) := by
  induction es with
  | nil =>
    intro q0 now0 timer0 h
    simp at h
  | cons e es ih =>
    intro q0 now0 timer0 h
    by_cases hc : e.complete = true
    · have hw : watch_queue_until_completed
          { queue := q0, completed := false, now := now0, timer := timer0 }
          (e :: es) = (q0 ++ e.arrivals).map (fun x => (now0 + e.dt, x)) := by
        simp [watch_queue_until_completed, hc]
      rw [hw, List.map_map]
      have hid : (Prod.snd ∘ fun x : PartialRunResult => (now0 + e.dt, x)) =
          id := rfl
      rw [hid, List.map_id]
      simp only [arrivals_before_completion, hc, if_pos]
      exact keep_interleaved_refl _ _
    · have hc2 : e.complete = false := by simpa using hc
      have hany : es.any (fun x => x.complete) = true := by
        simpa [hc2] using h
      cases hq : q0 ++ e.arrivals with
      | cons x rest =>
        have hw : watch_queue_until_completed
            { queue := q0, completed := false, now := now0, timer := timer0 }
            (e :: es) = (now0 + e.dt, x) ::
              watch_queue_until_completed
                { queue := rest, completed := false, now := now0 + e.dt
                  timer := timer0 } es := by
          simp [watch_queue_until_completed, hc2, hq]
        rw [hw]
        have hl : q0 ++ arrivals_before_completion (e :: es) =
            x :: (rest ++ arrivals_before_completion es) := by
          simp only [arrivals_before_completion, hc2, if_neg, Bool.false_eq_true,
            not_false_iff]
          rw [← List.append_assoc, hq]
          rfl
        rw [hl, List.map_cons]
        exact KeepInterleaved.cons x (ih rest (now0 + e.dt) timer0 hany)
      | nil =>
        have hq0 : q0 = [] := (List.append_eq_nil.mp hq).1
        have har : e.arrivals = [] := (List.append_eq_nil.mp hq).2
        have hl : q0 ++ arrivals_before_completion (e :: es) =
            arrivals_before_completion es := by
          simp [arrivals_before_completion, hc2, hq0, har]
        by_cases ht : EMPTY_MESSAGE_INTERVAL < now0 + e.dt - timer0
        · have hw : watch_queue_until_completed
              { queue := q0, completed := false, now := now0, timer := timer0 }
              (e :: es) = (now0 + e.dt, empty_message) ::
                watch_queue_until_completed
                  { queue := [], completed := false, now := now0 + e.dt
                    timer := now0 + e.dt } es := by
            simp [watch_queue_until_completed, hc2, hq, ht]
          rw [hw, hl, List.map_cons]
          refine KeepInterleaved.keep ?_
          simpa using ih [] (now0 + e.dt) (now0 + e.dt) hany
        · have hw : watch_queue_until_completed
              { queue := q0, completed := false, now := now0, timer := timer0 }
              (e :: es) =
                watch_queue_until_completed
                  { queue := [], completed := false, now := now0 + e.dt
                    timer := timer0 } es := by
            simp [watch_queue_until_completed, hc2, hq, ht]
          rw [hw, hl]
          simpa using ih [] (now0 + e.dt) timer0 hany

/-- C2 witness: a queue holding one log element and a schedule whose only
step completes the future: the drained stream is exactly that element. -/
theorem watch_queue_fifo_ordering_witness :
    (([{ arrivals := [], complete := true, dt := 0 }] : List EnvStep).any
      (fun e => e.complete)) = true ∧
    KeepInterleaved empty_message
      ([demo_element] ++ arrivals_before_completion
        [{ arrivals := [], complete := true, dt := 0 }])
      ((watch_queue_until_completed
          { queue := [demo_element], completed := false, now := 0, timer := 0 }
          [{ arrivals := [], complete := true, dt := 0 }]).map Prod.snd) :=
  ⟨by decide,
    watch_queue_fifo_ordering [{ arrivals := [], complete := true, dt := 0 }]
      [demo_element] 0 0 (by decide)⟩

/-- C5 counterexample: the keep-alive timer is reset only at the start of
the watch and when a synthetic element is emitted, never by queue activity.
Here a log element is delivered at t=601 (the get and the yield to a slow
client took 601 s, during which the queue was never idle) and the very next
poll at t=602 emits a synthetic element — only 1 second after the last
queue activity, far sooner than EMPTY_MESSAGE_INTERVAL. -/
theorem keep_alive_not_reset_by_activity :
    watch_queue_until_completed
        { queue := [demo_element], completed := false, now := 0, timer := 0 }
        [{ arrivals := [], complete := false, dt := 601 },
         { arrivals := [], complete := false, dt := 1 },
         { arrivals := [], complete := true, dt := 0 }] =
      [(601, demo_element), (602, empty_message)] ∧
    demo_element ≠ empty_message ∧
    602 - 601 < EMPTY_MESSAGE_INTERVAL := by
  decide

/-- C5 (amended): a synthetic empty element is emitted at a poll timeout
whenever more than EMPTY_MESSAGE_INTERVAL has elapsed since the start of
the watch or since the previous synthetic element — queue activity does not
reset that timer.  Consequently consecutive synthetic elements are always
more than EMPTY_MESSAGE_INTERVAL apart (and the first comes more than an
interval after the watch begins), but a synthetic element may appear sooner
than EMPTY_MESSAGE_INTERVAL after the last queue activity. -/
theorem keep_alive_interval_spacing :
    (∀ (es : List EnvStep) (q0 : List PartialRunResult) (now0 timer0 : Nat),
      (∀ x ∈ q0, x ≠ empty_message) →
      (∀ e ∈ es, ∀ x ∈ e.arrivals, x ≠ empty_message) →
      List.Chain' (fun a b => EMPTY_MESSAGE_INTERVAL < b - a)
        (timer0 :: keep_times
          (watch_queue_until_completed
            { queue := q0, completed := false, now := now0, timer := timer0 }
            es))) ∧
    (∀ (now timer dt : Nat) (es : List EnvStep),
      EMPTY_MESSAGE_INTERVAL < now + dt - timer →
      watch_queue_until_completed
          { queue := [], completed := false, now := now, timer := timer }
          ({ arrivals := [], complete := false, dt := dt } :: es) =
        (now + dt, empty_message) ::
          watch_queue_until_completed
            { queue := [], completed := false, now := now + dt
              timer := now + dt } es) := by
  constructor
  · intro es
    induction es with
    | nil =>
      intro q0 now0 timer0 hq0 _
      have hw : watch_queue_until_completed
          { queue := q0, completed := false, now := now0, timer := timer0 }
          [] = q0.map (fun x => (now0, x)) := rfl
      rw [hw, keep_times_map_flush now0 q0 hq0]
      simp
    | cons e es ih =>
      intro q0 now0 timer0 hq0 harr
      have harr_e : ∀ x ∈ e.arrivals, x ≠ empty_message := harr e (by simp)
      have harr_es : ∀ e2 ∈ es, ∀ x ∈ e2.arrivals, x ≠ empty_message :=
        fun e2 he2 => harr e2 (by simp [he2])
      have hq : ∀ x ∈ q0 ++ e.arrivals, x ≠ empty_message := by
        intro x hx
        rcases List.mem_append.mp hx with h1 | h1
        exacts [hq0 x h1, harr_e x h1]
      by_cases hc : e.complete = true
      · have hw : watch_queue_until_completed
            { queue := q0, completed := false, now := now0, timer := timer0 }
            (e :: es) = (q0 ++ e.arrivals).map (fun x => (now0 + e.dt, x)) := by
          simp [watch_queue_until_completed, hc]
        rw [hw, keep_times_map_flush _ _ hq]
        simp
      · have hc2 : e.complete = false := by simpa using hc
        cases hqe : q0 ++ e.arrivals with
        | cons x rest =>
          have hx : x ≠ empty_message := hq x (by rw [hqe]; simp)
          have hrest : ∀ y ∈ rest, y ≠ empty_message :=
            fun y hy => hq y (by rw [hqe]; simp [hy])
          have hw : watch_queue_until_completed
              { queue := q0, completed := false, now := now0, timer := timer0 }
              (e :: es) = (now0 + e.dt, x) ::
                watch_queue_until_completed
                  { queue := rest, completed := false, now := now0 + e.dt
                    timer := timer0 } es := by
            simp [watch_queue_until_completed, hc2, hqe]
          rw [hw, keep_times_cons_ne _ _ _ hx]
          exact ih rest (now0 + e.dt) timer0 hrest harr_es
        | nil =>
          by_cases ht : EMPTY_MESSAGE_INTERVAL < now0 + e.dt - timer0
          · have hw : watch_queue_until_completed
                { queue := q0, completed := false, now := now0, timer := timer0 }
                (e :: es) = (now0 + e.dt, empty_message) ::
                  watch_queue_until_completed
                    { queue := [], completed := false, now := now0 + e.dt
                      timer := now0 + e.dt } es := by
              simp [watch_queue_until_completed, hc2, hqe, ht]
            rw [hw, keep_times_cons_keep]
            refine List.chain'_cons.mpr ⟨ht, ?_⟩
            exact ih [] (now0 + e.dt) (now0 + e.dt)
              (by intro x hx; cases hx) harr_es
          · have hw : watch_queue_until_completed
                { queue := q0, completed := false, now := now0, timer := timer0 }
                (e :: es) =
                  watch_queue_until_completed
                    { queue := [], completed := false, now := now0 + e.dt
                      timer := timer0 } es := by
              simp [watch_queue_until_completed, hc2, hqe, ht]
            rw [hw]
            exact ih [] (now0 + e.dt) timer0
              (by intro x hx; cases hx) harr_es
  · intro now timer dt es ht
    simp [watch_queue_until_completed, ht]

/-- C5 witness: starting an idle watch at t=0, the first poll that times
out 601 s in emits one synthetic element, and the synthetic emission times
respect the interval spacing. -/
theorem keep_alive_interval_spacing_witness :
    List.Chain' (fun a b => EMPTY_MESSAGE_INTERVAL < b - a)
      (0 :: keep_times
        (watch_queue_until_completed
          { queue := [], completed := false, now := 0, timer := 0 }
          [{ arrivals := [], complete := false, dt := 601 },
           { arrivals := [], complete := true, dt := 0 }])) ∧
    watch_queue_until_completed
        { queue := [], completed := false, now := 0, timer := 0 }
        [{ arrivals := [], complete := false, dt := 601 },
         { arrivals := [], complete := true, dt := 0 }] =
      (0 + 601, empty_message) ::
        watch_queue_until_completed
          { queue := [], completed := false, now := 0 + 601, timer := 0 + 601 }
          [{ arrivals := [], complete := true, dt := 0 }] := by
  refine ⟨?_, ?_⟩
  · exact keep_alive_interval_spacing.1
      [{ arrivals := [], complete := false, dt := 601 },
       { arrivals := [], complete := true, dt := 0 }] [] 0 0
      (by intro x hx; cases hx) (by decide)
  · exact keep_alive_interval_spacing.2 0 0 601
      [{ arrivals := [], complete := true, dt := 0 }] (by decide)

theorem agent_run_function_shape (request : FunctionCall)
    (b : AgentRunBehavior) :
    (agent_run_function request b).1.length ≤ 1 ∧
    ((agent_run_function request b).1.all
      (fun e => e.is_complete && e.result.isSome && e.logs.isEmpty)) = true := by
  unfold agent_run_function
  cases execute_function request.function "function" b.func_exec with
  | aborted msg => simp
  | returned wir tb =>
    cases hs : b.func_serialize <;> simp [send_object]

theorem agent_run_shape (request : FunctionCall) (b : AgentRunBehavior) :
    (AgentServicer.Run request b).1.length ≤ 1 ∧
    ((AgentServicer.Run request b).1.all
      (fun e => e.is_complete && e.result.isSome && e.logs.isEmpty)) = true := by
  unfold AgentServicer.Run
  cases request.setup_func with
  | none => exact agent_run_function_shape request b
  | some setup_func =>
    cases hcache : b.setup_cached with
    | true =>
      simp only [if_pos]
      exact agent_run_function_shape request b
    | false =>
      simp only [Bool.false_eq_true, if_false]
      cases execute_function setup_func "setup" b.setup_exec with
      | aborted msg => simp
      | returned wir tb =>
        cases wir with
        | true => cases hs : b.setup_serialize <;> simp [send_object]
        | false => exact agent_run_function_shape request b

theorem terminal_then_keeps_of_dropLast (l : List PartialRunResult)
    (h : (l.dropLast.all (fun x => !x.is_complete)) = true) :
    terminal_then_keeps l = true := by
  induction l with
  | nil => rfl
  | cons x rest ih =>
    cases rest with
    | nil =>
      by_cases hx : x.is_complete = true
      · simp [terminal_then_keeps, hx]
      · simp [terminal_then_keeps, hx]
    | cons y rest2 =>
      have hd : (x :: y :: rest2).dropLast = x :: (y :: rest2).dropLast := rfl
      rw [hd, List.all_cons, Bool.and_eq_true] at h
      have hx : x.is_complete = false := by simpa using h.1
      simpa [terminal_then_keeps, hx] using ih h.2

theorem watch_only_keeps (es : List EnvStep) :
    ∀ (now0 timer0 : Nat), arrivals_before_completion es = [] →
      (((watch_queue_until_completed
        { queue := [], completed := false, now := now0, timer := timer0 }
        es).map Prod.snd).all (fun y => y == empty_message)) = true := by
  induction es with
  | nil =>
    intro n tm _
    rfl
  | cons e es ih =>
    intro n tm h
    by_cases hc : e.complete = true
    · have har : e.arrivals = [] := by
        simpa [arrivals_before_completion, hc] using h
      simp [watch_queue_until_completed, hc, har]
    · have hc2 : e.complete = false := by simpa using hc
      have h2 : e.arrivals = [] ∧ arrivals_before_completion es = [] := by
        have h3 := h
        simp [arrivals_before_completion, hc2, List.append_eq_nil] at h3
        exact h3
      by_cases ht : EMPTY_MESSAGE_INTERVAL < n + e.dt - tm
      · have hw : watch_queue_until_completed
            { queue := [], completed := false, now := n, timer := tm }
            (e :: es) = (n + e.dt, empty_message) ::
              watch_queue_until_completed
                { queue := [], completed := false, now := n + e.dt
                  timer := n + e.dt } es := by
          simp [watch_queue_until_completed, hc2, h2.1, ht]
        rw [hw, List.map_cons, List.all_cons]
        simp only [beq_self_eq_true, Bool.true_and]
        exact ih (n + e.dt) (n + e.dt) h2.2
      · have hw : watch_queue_until_completed
            { queue := [], completed := false, now := n, timer := tm }
            (e :: es) =
              watch_queue_until_completed
                { queue := [], completed := false, now := n + e.dt
                  timer := tm } es := by
          simp [watch_queue_until_completed, hc2, h2.1, ht]
        rw [hw]
        exact ih (n + e.dt) tm h2.2

theorem watch_output_all (es : List EnvStep) (p : PartialRunResult → Bool)
    (hk : p empty_message = true) :
    ∀ (q0 : List PartialRunResult) (now0 timer0 : Nat),
      (∀ x ∈ q0, p x = true) →
      (∀ e ∈ es, ∀ x ∈ e.arrivals, p x = true) →
      (((watch_queue_until_completed
        { queue := q0, completed := false, now := now0, timer := timer0 }
        es).map Prod.snd).all p) = true := by
  induction es with
  | nil =>
    intro q0 n tm hq _
    have hid : (Prod.snd ∘ fun x : PartialRunResult => (n, x)) = id := rfl
    have hw : (watch_queue_until_completed
        { queue := q0, completed := false, now := n, timer := tm } []).map
        Prod.snd = q0 := by
      show (q0.map (fun x => (n, x))).map Prod.snd = q0
      rw [List.map_map, hid, List.map_id]
    rw [hw]
    exact List.all_eq_true.mpr hq
  | cons e es ih =>
    intro q0 n tm hq harr
    have harr_e : ∀ x ∈ e.arrivals, p x = true := harr e (by simp)
    have harr_es : ∀ e2 ∈ es, ∀ x ∈ e2.arrivals, p x = true :=
      fun e2 he2 => harr e2 (by simp [he2])
    have hqa : ∀ x ∈ q0 ++ e.arrivals, p x = true := by
      intro x hx
      rcases List.mem_append.mp hx with h1 | h1
      exacts [hq x h1, harr_e x h1]
    by_cases hc : e.complete = true
    · have hid : (Prod.snd ∘ fun x : PartialRunResult => (n + e.dt, x)) =
        id := rfl
      have hw : (watch_queue_until_completed
          { queue := q0, completed := false, now := n, timer := tm }
          (e :: es)).map Prod.snd = q0 ++ e.arrivals := by
        have hflush : watch_queue_until_completed
            { queue := q0, completed := false, now := n, timer := tm }
            (e :: es) = (q0 ++ e.arrivals).map (fun x => (n + e.dt, x)) := by
          simp [watch_queue_until_completed, hc]
        rw [hflush, List.map_map, hid, List.map_id]
      rw [hw]
      exact List.all_eq_true.mpr hqa
    · have hc2 : e.complete = false := by simpa using hc
      cases hqe : q0 ++ e.arrivals with
      | cons x rest =>
        have hx : p x = true := hqa x (by rw [hqe]; simp)
        have hrest : ∀ y ∈ rest, p y = true :=
          fun y hy => hqa y (by rw [hqe]; simp [hy])
        have hw : watch_queue_until_completed
            { queue := q0, completed := false, now := n, timer := tm }
            (e :: es) = (n + e.dt, x) ::
              watch_queue_until_completed
                { queue := rest, completed := false, now := n + e.dt
                  timer := tm } es := by
          simp [watch_queue_until_completed, hc2, hqe]
        rw [hw, List.map_cons, List.all_cons, hx, Bool.true_and]
        exact ih rest (n + e.dt) tm hrest harr_es
      | nil =>
        by_cases ht : EMPTY_MESSAGE_INTERVAL < n + e.dt - tm
        · have hw : watch_queue_until_completed
              { queue := q0, completed := false, now := n, timer := tm }
              (e :: es) = (n + e.dt, empty_message) ::
                watch_queue_until_completed
                  { queue := [], completed := false, now := n + e.dt
                    timer := n + e.dt } es := by
            simp [watch_queue_until_completed, hc2, hqe, ht]
          rw [hw, List.map_cons, List.all_cons, hk, Bool.true_and]
          exact ih [] (n + e.dt) (n + e.dt) (by intro x hx; cases hx) harr_es
        · have hw : watch_queue_until_completed
              { queue := q0, completed := false, now := n, timer := tm }
              (e :: es) =
                watch_queue_until_completed
                  { queue := [], completed := false, now := n + e.dt
                    timer := tm } es := by
            simp [watch_queue_until_completed, hc2, hqe, ht]
          rw [hw]
          exact ih [] (n + e.dt) tm (by intro x hx; cases hx) harr_es

theorem watch_terminal_then_keeps (es : List EnvStep) :
    ∀ (q0 : List PartialRunResult) (now0 timer0 : Nat),
      ((q0 ++ arrivals_before_completion es).dropLast.all
        (fun x => !x.is_complete)) = true →
      terminal_then_keeps
        ((watch_queue_until_completed
          { queue := q0, completed := false, now := now0, timer := timer0 }
          es).map Prod.snd) = true := by
  induction es with
  | nil =>
    intro q0 n tm h
    have hid : (Prod.snd ∘ fun x : PartialRunResult => (n, x)) = id := rfl
    have hw : (watch_queue_until_completed
        { queue := q0, completed := false, now := n, timer := tm } []).map
        Prod.snd = q0 := by
      show (q0.map (fun x => (n, x))).map Prod.snd = q0
      rw [List.map_map, hid, List.map_id]
    rw [hw]
    exact terminal_then_keeps_of_dropLast q0
      (by simpa [arrivals_before_completion] using h)
  | cons e es ih =>
    intro q0 n tm h
    by_cases hc : e.complete = true
    · have hid : (Prod.snd ∘ fun x : PartialRunResult => (n + e.dt, x)) =
        id := rfl
      have hw : (watch_queue_until_completed
          { queue := q0, completed := false, now := n, timer := tm }
          (e :: es)).map Prod.snd = q0 ++ e.arrivals := by
        have hflush : watch_queue_until_completed
            { queue := q0, completed := false, now := n, timer := tm }
            (e :: es) = (q0 ++ e.arrivals).map (fun x => (n + e.dt, x)) := by
          simp [watch_queue_until_completed, hc]
        rw [hflush, List.map_map, hid, List.map_id]
      rw [hw]
      refine terminal_then_keeps_of_dropLast _ ?_
      simpa [arrivals_before_completion, hc] using h
    · have hc2 : e.complete = false := by simpa using hc
      have habc : arrivals_before_completion (e :: es) =
          e.arrivals ++ arrivals_before_completion es := by
        simp [arrivals_before_completion, hc2]
      cases hqe : q0 ++ e.arrivals with
      | cons x rest =>
        have hw : watch_queue_until_completed
            { queue := q0, completed := false, now := n, timer := tm }
            (e :: es) = (n + e.dt, x) ::
              watch_queue_until_completed
                { queue := rest, completed := false, now := n + e.dt
                  timer := tm } es := by
          simp [watch_queue_until_completed, hc2, hqe]
        rw [hw, List.map_cons]
        have hwhole : q0 ++ arrivals_before_completion (e :: es) =
            x :: (rest ++ arrivals_before_completion es) := by
          rw [habc, ← List.append_assoc, hqe]
          rfl
        rw [hwhole] at h
        cases hre : rest ++ arrivals_before_completion es with
        | nil =>
          have hrest : rest = [] := (List.append_eq_nil.mp hre).1
          have habc0 : arrivals_before_completion es = [] :=
            (List.append_eq_nil.mp hre).2
          by_cases hx : x.is_complete = true
          · have hshape : terminal_then_keeps ((n + e.dt, x).snd ::
                (watch_queue_until_completed
                  { queue := rest, completed := false, now := n + e.dt
                    timer := tm } es).map Prod.snd) =
                ((watch_queue_until_completed
                  { queue := rest, completed := false, now := n + e.dt
                    timer := tm } es).map Prod.snd).all
                  (fun y => y == empty_message) := by
              simp [terminal_then_keeps, hx]
            rw [hshape, hrest]
            exact watch_only_keeps es (n + e.dt) tm habc0
          · have hx2 : x.is_complete = false := by simpa using hx
            have hshape : terminal_then_keeps ((n + e.dt, x).snd ::
                (watch_queue_until_completed
                  { queue := rest, completed := false, now := n + e.dt
                    timer := tm } es).map Prod.snd) =
                terminal_then_keeps
                  ((watch_queue_until_completed
                    { queue := rest, completed := false, now := n + e.dt
                      timer := tm } es).map Prod.snd) := by
              simp [terminal_then_keeps, hx2]
            rw [hshape, hrest]
            exact ih [] (n + e.dt) tm (by simp [habc0])
        | cons z zs =>
          rw [hre] at h
          have hd : (x :: z :: zs).dropLast = x :: (z :: zs).dropLast := rfl
          rw [hd, List.all_cons, Bool.and_eq_true] at h
          have hx2 : x.is_complete = false := by simpa using h.1
          have hshape : terminal_then_keeps ((n + e.dt, x).snd ::
              (watch_queue_until_completed
                { queue := rest, completed := false, now := n + e.dt
                  timer := tm } es).map Prod.snd) =
              terminal_then_keeps
                ((watch_queue_until_completed
                  { queue := rest, completed := false, now := n + e.dt
                    timer := tm } es).map Prod.snd) := by
            simp [terminal_then_keeps, hx2]
          rw [hshape]
          refine ih rest (n + e.dt) tm ?_
          rw [hre]
          exact h.2
      | nil =>
        have hq0 : q0 = [] := (List.append_eq_nil.mp hqe).1
        have har : e.arrivals = [] := (List.append_eq_nil.mp hqe).2
        have hh : (([] ++ arrivals_before_completion es).dropLast.all
            (fun x => !x.is_complete)) = true := by
          rw [hq0, habc, har] at h
          simpa using h
        by_cases ht : EMPTY_MESSAGE_INTERVAL < n + e.dt - tm
        · have hw : watch_queue_until_completed
              { queue := q0, completed := false, now := n, timer := tm }
              (e :: es) = (n + e.dt, empty_message) ::
                watch_queue_until_completed
                  { queue := [], completed := false, now := n + e.dt
                    timer := n + e.dt } es := by
            simp [watch_queue_until_completed, hc2, hqe, ht]
          rw [hw, List.map_cons]
          have hk : empty_message.is_complete = false := rfl
          have hshape : terminal_then_keeps ((n + e.dt, empty_message).snd ::
              (watch_queue_until_completed
                { queue := [], completed := false, now := n + e.dt
                  timer := n + e.dt } es).map Prod.snd) =
              terminal_then_keeps
                ((watch_queue_until_completed
                  { queue := [], completed := false, now := n + e.dt
                    timer := n + e.dt } es).map Prod.snd) := by
            simp [terminal_then_keeps, hk]
          rw [hshape]
          exact ih [] (n + e.dt) (n + e.dt) hh
        · have hw : watch_queue_until_completed
              { queue := q0, completed := false, now := n, timer := tm }
              (e :: es) =
                watch_queue_until_completed
                  { queue := [], completed := false, now := n + e.dt
                    timer := tm } es := by
            simp [watch_queue_until_completed, hc2, hqe, ht]
          rw [hw]
          exact ih [] (n + e.dt) tm hh

/-- C4 counterexample: a traced run in which the terminal element is NOT
the last element of the stream.  The agent run yields exactly one terminal
element; the pump enqueues it and the drainer delivers it at t=601 s while
the pump future is still incomplete (the agent has not yet closed its
stream); the next poll at t=602 s times out with the keep-alive timer still
holding its initial value, so a synthetic keep-alive element follows the
is_complete=true element — the claim says the terminal element is the last
element of the stream. -/
theorem terminal_not_last_counterexample :
    (AgentServicer.Run demo_call demo_behavior).1 = [demo_terminal] ∧
    demo_terminal.is_complete = true ∧
    watch_queue_until_completed
        { queue := [], completed := false, now := 0, timer := 0 }
        [{ arrivals := [demo_terminal], complete := false, dt := 601 },
         { arrivals := [], complete := false, dt := 1 },
         { arrivals := [], complete := true, dt := 0 }] =
      [(601, demo_terminal), (602, empty_message)] ∧
    empty_message ≠ demo_terminal := by
  decide

/-- C4 (amended): in the stream produced for one request — agent-emitted
elements forwarded by the pump, log-hook elements, and drainer keep-alive
elements — an element with is_complete=true appears at most once, carries a
non-null result, and is the last NON-SYNTHETIC element: every element that
follows it is a drainer keep-alive (possible only when a poll times out
between the delivery of the terminal element and the observation of pump
completion); all log elements and keep-alive elements have
is_complete=false and a null result, and the agent emits at most one
element, which is terminal with a non-null result and empty logs. -/
theorem stream_terminal_element_invariants (request : FunctionCall)
    (b : AgentRunBehavior) (es : List EnvStep)
    (q0 : List PartialRunResult) (now0 timer0 : Nat)
    (henq_q : ∀ x ∈ q0, (∃ log, x = log_handler_element log) ∨
      x ∈ (AgentServicer.Run request b).1)
    (henq_a : ∀ e ∈ es, ∀ x ∈ e.arrivals,
      (∃ log, x = log_handler_element log) ∨
      x ∈ (AgentServicer.Run request b).1)
    (hlast : ((q0 ++ arrivals_before_completion es).dropLast.all
      (fun x => !x.is_complete)) = true) :
    terminal_then_keeps
      ((watch_queue_until_completed
        { queue := q0, completed := false, now := now0, timer := timer0 }
        es).map Prod.snd) = true ∧
    (((watch_queue_until_completed
        { queue := q0, completed := false, now := now0, timer := timer0 }
        es).map Prod.snd).all
      (fun x => !x.is_complete || x.result.isSome)) = true ∧
    (AgentServicer.Run request b).1.length ≤ 1 ∧
    ((AgentServicer.Run request b).1.all
      (fun e => e.is_complete && e.result.isSome && e.logs.isEmpty)) = true ∧
    (∀ log : Log, (log_handler_element log).is_complete = false ∧
      (log_handler_element log).result = none) ∧
    empty_message.is_complete = false ∧ empty_message.result = none := by
  have hshape := agent_run_shape request b
  have hp : ∀ x, ((∃ log, x = log_handler_element log) ∨
      x ∈ (AgentServicer.Run request b).1) →
      (!x.is_complete || x.result.isSome) = true := by
    intro x hx
    rcases hx with ⟨log, hlog⟩ | hmem
    · rw [hlog]
      rfl
    · have := List.all_eq_true.mp hshape.2 x hmem
      simp only [Bool.and_eq_true] at this
      rw [this.1.2]
      simp
  refine ⟨watch_terminal_then_keeps es q0 now0 timer0 hlast, ?_,
    hshape.1, hshape.2, fun log => ⟨rfl, rfl⟩, rfl, rfl⟩
  exact watch_output_all es (fun x => !x.is_complete || x.result.isSome) rfl
    q0 now0 timer0 (fun x hx => hp x (henq_q x hx))
    (fun e he x hx => hp x (henq_a e he x hx))

/-- C4 witness: a queue holding one log element, a schedule delivering the
agent's terminal element at the completing step: the drained stream keeps
the terminal element last and every element satisfies the shape
invariants. -/
theorem stream_terminal_element_invariants_witness :
    terminal_then_keeps
      ((watch_queue_until_completed
        { queue := [demo_element], completed := false, now := 0, timer := 0 }
        [{ arrivals := [demo_terminal], complete := true, dt := 0 }]).map
        Prod.snd) = true ∧
    (((watch_queue_until_completed
        { queue := [demo_element], completed := false, now := 0, timer := 0 }
        [{ arrivals := [demo_terminal], complete := true, dt := 0 }]).map
        Prod.snd).all
      (fun x => !x.is_complete || x.result.isSome)) = true ∧
    (AgentServicer.Run demo_call demo_behavior).1.length ≤ 1 ∧
    ((AgentServicer.Run demo_call demo_behavior).1.all
      (fun e => e.is_complete && e.result.isSome && e.logs.isEmpty)) = true ∧
    (∀ log : Log, (log_handler_element log).is_complete = false ∧
      (log_handler_element log).result = none) ∧
    empty_message.is_complete = false ∧ empty_message.result = none := by
  refine stream_terminal_element_invariants demo_call demo_behavior
    [{ arrivals := [demo_terminal], complete := true, dt := 0 }]
    [demo_element] 0 0 ?_ ?_ (by decide)
  · intro x hx
    have hx2 : x = demo_element := by simpa using hx
    exact Or.inl ⟨{ message := "m", level := LogLevel.info
                    source := LogSource.builder }, by rw [hx2]; rfl⟩
  · intro e he x hx
    have he2 : e = { arrivals := [demo_terminal], complete := true
                     dt := 0 } := by simpa using he
    rw [he2] at hx
    have hx2 : x = demo_terminal := by simpa using hx
    refine Or.inr ?_
    rw [hx2]
    decide

end Isolate
